import Mathlib

/-!
Verification of the GOnSales client-side caching and data layer.

Shallow embedding of the `DataManager` (data stores, validation, CRUD,
persistence) and the `CacheManager` (three cache tiers, TTL, eviction,
auto strategy) from the repository sources.  JavaScript numbers are
modelled as exact rationals extended with NaN and the two infinities
(the claims only exercise small integers, where IEEE doubles are exact);
timestamps are integers; `localStorage` / `sessionStorage` are modelled
as ordered association lists, as is the insertion-ordered JS `Map`.
-/

namespace GOnSales

/-- A JavaScript runtime value as used by the data layer: strings, numbers,
`Date` objects (by their timestamp), `null` and `undefined`. -/
inductive JSVal where
  | vStr (s : String)
  | vNum (q : ℚ)
  | vDate (t : ℤ)
  | vNull
  | vUndefined
deriving DecidableEq, Repr

/-- A JavaScript number as produced by arithmetic: NaN, the infinities, or
an exact finite value `n / d`.  The fraction is kept unnormalized with a
positive denominator (normalizing would need `Nat.gcd`, which does not
reduce definitionally); every consumer compares by cross-multiplication,
so the representation is still exact. -/
inductive JSNum where
  | nan
  | inf
  | ninf
  | fin (n : ℤ) (d : ℤ)
deriving DecidableEq, Repr

/-- Build a finite JS number, flipping signs so the denominator stays
positive. -/
def mkFin (n d : ℤ) : JSNum :=
  if d < 0 then .fin (-n) (-d) else .fin n d

/-- ToNumber on a string: the empty string gives 0, an optionally signed
digit string gives its value, anything else gives NaN (decimal/exponent
forms are abstracted; no claim exercises them). -/
def strToNum (s : String) : JSNum :=
  if s = "" then .fin 0 1
  else
    let (sgn, ds) : ℤ × List Char :=
      match s.data with
      | '-' :: rest => (-1, rest)
      | '+' :: rest => (1, rest)
      | l => (1, l)
    if ds ≠ [] ∧ ds.all (·.isDigit) then
      .fin (sgn * (ds.foldl (fun acc c => acc * 10 + (c.toNat - '0'.toNat)) 0 : ℕ)) 1
    else .nan

/-- JS ToNumber coercion of a value (`undefined` gives NaN, `null` gives 0,
a `Date` gives its timestamp). -/
def jsToNum : JSVal → JSNum
  | .vStr s => strToNum s
  | .vNum q => .fin q.num q.den
  | .vDate t => .fin t 1
  | .vNull => .fin 0 1
  | .vUndefined => .nan

/-- JS subtraction on numbers (the cases with NaN and infinities follow
IEEE semantics; `inf - inf` is NaN). -/
def jsSub : JSNum → JSNum → JSNum
  | .nan, _ => .nan
  | _, .nan => .nan
  | .inf, .inf => .nan
  | .inf, _ => .inf
  | .ninf, .ninf => .nan
  | .ninf, _ => .ninf
  | .fin _ _, .inf => .ninf
  | .fin _ _, .ninf => .inf
  | .fin n1 d1, .fin n2 d2 => .fin (n1 * d2 - n2 * d1) (d1 * d2)

/-- JS division on numbers: division of a nonzero finite value by zero gives
a signed infinity, `0 / 0` gives NaN. -/
def jsDiv : JSNum → JSNum → JSNum
  | .nan, _ => .nan
  | _, .nan => .nan
  | .inf, .inf => .nan
  | .inf, .ninf => .nan
  | .ninf, .inf => .nan
  | .ninf, .ninf => .nan
  | .inf, .fin n _ => if n < 0 then .ninf else .inf
  | .ninf, .fin n _ => if n < 0 then .inf else .ninf
  | .fin _ _, .inf => .fin 0 1
  | .fin _ _, .ninf => .fin 0 1
  | .fin n1 d1, .fin n2 d2 =>
    if n2 = 0 then (if n1 = 0 then .nan else if 0 < n1 then .inf else .ninf)
    else mkFin (n1 * d2) (d1 * n2)

/-- `x < y` on JS numbers; any comparison with NaN is false.  Finite values
compare by cross-multiplication (denominators are positive). -/
def jsNumLt : JSNum → JSNum → Bool
  | .nan, _ => false
  | _, .nan => false
  | .inf, _ => false
  | .ninf, .ninf => false
  | .ninf, _ => true
  | .fin _ _, .inf => true
  | .fin _ _, .ninf => false
  | .fin n1 d1, .fin n2 d2 => decide (n1 * d2 < n2 * d1)

/-- JS abstract relational comparison `a < b` on values: two strings compare
lexicographically, otherwise both sides are coerced to numbers. -/
def jsLt (a b : JSVal) : Bool :=
  match a, b with
  | .vStr s, .vStr t => decide (s < t)
  | _, _ => jsNumLt (jsToNum a) (jsToNum b)

/-- JS `a > b` on values, i.e. the relational comparison with the operands
swapped (false on NaN). -/
def jsGt (a b : JSVal) : Bool := jsLt b a

/-- Truthiness of a value: `undefined`, `null`, the empty string and 0 are
falsy, every other string/number/date is truthy. -/
def jsTruthy : JSVal → Bool
  | .vStr s => s ≠ ""
  | .vNum q => q ≠ 0
  | .vDate _ => true
  | .vNull => false
  | .vUndefined => false

/-- Decimal rendering of a rational; exact for integral values (the only
ones the claims serialize), abstracted otherwise. -/
def ratToStr (q : ℚ) : String :=
  if q.den = 1 then toString q.num
  else toString q.num ++ "/" ++ toString q.den

/-- Rendering of a `Date` timestamp; the exact ISO-8601 text is abstracted —
all claims depend on is that it is a string, not a `Date`. -/
def isoStr (t : ℤ) : String := toString t ++ "Z"

/-- JS ToString coercion of a value. -/
def jsToString : JSVal → String
  | .vStr s => s
  | .vNum q => ratToStr q
  | .vDate t => isoStr t
  | .vNull => "null"
  | .vUndefined => "undefined"

/-- A record / plain JS object: an insertion-ordered association list from
field names to values. -/
abbrev JSRecord := List (String × JSVal)

/-- Property access `r[f]`: the value of the first matching field, or
`undefined` when the field is absent. -/
def getField (r : JSRecord) (f : String) : JSVal :=
  match r.find? (fun p => p.1 = f) with
  | some p => p.2
  | none => .vUndefined

/-- Property assignment `r[f] = v`: overwrites in place (keeping the key's
original position, as JS objects do) or appends a fresh field. -/
def recSet (r : JSRecord) (f : String) (v : JSVal) : JSRecord :=
  if r.any (fun p => p.1 = f) then
    r.map (fun p => if p.1 = f then (f, v) else p)
  else r ++ [(f, v)]

/-- Object spread `{...old, ...upd}`: assigns every field of `upd`, in
order, over `old`. -/
def mergeRec (old upd : JSRecord) : JSRecord :=
  upd.foldl (fun r p => recSet r p.1 p.2) old

/-- Escaping of one character inside a JSON string literal (quote and
backslash; control characters are abstracted, no claim uses them). -/
def escChar (c : Char) : List Char :=
  if c = '"' then ['\\', '"']
  else if c = '\\' then ['\\', '\\'] else [c]

/-- Body of a JSON string literal for `s`. -/
def jsonEscape (s : String) : String :=
  String.mk ((s.data.map escChar).foldr (· ++ ·) [])

/-- `JSON.stringify` of a string: the escaped body in double quotes. -/
def jsonQuote (s : String) : String := "\"" ++ jsonEscape s ++ "\""

/-- `JSON.stringify` of a primitive value, as used by `CacheManager.serialize`
(a `Date` stringifies to its ISO string in quotes; stringifying `undefined`
yields no JSON text, modelled by the literal text since no claim caches it). -/
def serialize : JSVal → String
  | .vStr s => jsonQuote s
  | .vNum q => ratToStr q
  | .vDate t => jsonQuote (isoStr t)
  | .vNull => "null"
  | .vUndefined => "undefined"

/-- The effect of `JSON.parse ∘ JSON.stringify` on a field value: `Date`
objects come back as their ISO strings, other primitives survive. -/
def rtVal : JSVal → JSVal
  | .vDate t => .vStr (isoStr t)
  | v => v

/-- JSON round trip of a record: `undefined`-valued fields are dropped by
`JSON.stringify`, every other field value goes through `rtVal`. -/
def rtRec (r : JSRecord) : JSRecord :=
  (r.filter (fun p => p.2 ≠ JSVal.vUndefined)).map (fun p => (p.1, rtVal p.2))

/-- JSON round trip of a whole record list, as performed by
`saveAllData` followed by `loadAllData`. -/
def rtList (l : List JSRecord) : List JSRecord := l.map rtRec

/-! ### Ordered key/value maps

A JS `Map` and the two browser storages are modelled as insertion-ordered
association lists: `set`/`setItem` overwrites an existing key in place or
appends a fresh one, `get`/`getItem` takes the first match, `delete`/
`removeItem` drops the key. -/

/-- The keys of a map, in iteration order. -/
def alKeys (m : List (String × β)) : List String := m.map Prod.fst

/-- Lookup: the value stored under `k`, if any. -/
def alGet (m : List (String × β)) (k : String) : Option β :=
  (m.find? (fun p => p.1 = k)).map (·.2)

/-- Lookup with a default. -/
def alGetD (m : List (String × β)) (k : String) (d : β) : β :=
  (alGet m k).getD d

/-- `Map.set` / `setItem`: overwrite in place or append. -/
def alSet (m : List (String × β)) (k : String) (v : β) : List (String × β) :=
  if m.any (fun p => p.1 = k) then
    m.map (fun p => if p.1 = k then (k, v) else p)
  else m ++ [(k, v)]

/-- `Map.delete` / `removeItem`. -/
def alDelete (m : List (String × β)) (k : String) : List (String × β) :=
  m.filter (fun p => ¬(p.1 = k))

/-! ### CacheManager (`ui-ux.js`) -/

/-- A cache entry as built by `CacheManager.set`: the serialized value, the
creation timestamp, the TTL in milliseconds, a priority tag, and the access
statistics that the eviction policy reads. -/
structure CacheEntry where
  value : String
  timestamp : ℤ
  ttl : ℤ
  priority : String
  accessCount : ℕ
  lastAccess : ℤ
deriving DecidableEq, Repr

/-- The cache strategies accepted by `CacheManager.set`/`get`. -/
inductive Strategy where
  | memory
  | localStorage
  | sessionStorage
  | auto
deriving DecidableEq, Repr

/-- The three tier backends: the in-memory `Map` plus the entries the
manager keeps under `cache_`-prefixed keys in the two browser storages
(stored entries survive a JSON round trip unchanged, since every field is a
JSON primitive, so the storages are modelled as holding entries directly). -/
structure CacheState where
  memoryCache : List (String × CacheEntry)
  sessionStore : List (String × CacheEntry)
  localStore : List (String × CacheEntry)
deriving DecidableEq, Repr

/-- The empty cache, as built by the `CacheManager` constructor. -/
def emptyCache : CacheState := ⟨[], [], []⟩

/-- `cacheConfig`: per-tier capacity and default TTL. -/
def memoryMaxSize : ℕ := 100
/-- Capacity of the localStorage tier. -/
def localMaxSize : ℕ := 50
/-- Capacity of the sessionStorage tier. -/
def sessionMaxSize : ℕ := 25

/-- `getDefaultTTL`: the configured tier TTL, or five minutes when the
strategy has no configuration entry (`auto`). -/
def getDefaultTTL : Strategy → ℤ
  | .memory => 5 * 60 * 1000
  | .localStorage => 60 * 60 * 1000
  | .sessionStorage => 30 * 60 * 1000
  | .auto => 5 * 60 * 1000

/-- The entry built at the top of `CacheManager.set`: value serialized,
timestamps stamped to now, `ttl || getDefaultTTL(strategy)` (a zero or
absent TTL option falls back to the default, `||` being a truthiness test). -/
def mkEntry (now : ℤ) (value : JSVal) (strategy : Strategy)
    (ttlOpt : Option ℤ) (prio : String) : CacheEntry :=
  { value := serialize value
    timestamp := now
    ttl := match ttlOpt with
      | some t => if t ≠ 0 then t else getDefaultTTL strategy
      | none => getDefaultTTL strategy
    priority := prio
    accessCount := 0
    lastAccess := now }

/-- `CacheManager.isValid`: an entry is valid while
`now - timestamp < ttl`. -/
def isValidEntry (now : ℤ) (e : CacheEntry) : Bool :=
  decide (now - e.timestamp < e.ttl)

/-- One step of the `evictMemoryCache` scan: an entry strictly older than
the best seen so far becomes the new candidate. -/
def evictStep (acc : ℤ × Option String) (p : String × CacheEntry) :
    ℤ × Option String :=
  if p.2.lastAccess < acc.1 then (p.2.lastAccess, some p.1) else acc

/-- The scan inside `evictMemoryCache`: fold over the entries in iteration
order, keeping the key of the entry with the strictly smallest `lastAccess`
seen so far, starting from `oldestTime = Date.now()` and no key. -/
def evictScan (now : ℤ) (m : List (String × CacheEntry)) : ℤ × Option String :=
  m.foldl evictStep (now, none)

/-- `evictMemoryCache`: delete the scanned key, when the scan found one. -/
def evictMemoryCache (now : ℤ) (m : List (String × CacheEntry)) :
    List (String × CacheEntry) :=
  match (evictScan now m).2 with
  | some k => alDelete m k
  | none => m

/-- `setMemoryCache`: evict when the tier is at capacity, then insert. -/
def setMemoryCache (now : ℤ) (m : List (String × CacheEntry))
    (k : String) (e : CacheEntry) : List (String × CacheEntry) :=
  let m' := if memoryMaxSize ≤ m.length then evictMemoryCache now m else m
  alSet m' k e

/-- Batch eviction for a storage tier: sort the entries ascending by
`lastAccess` (JS `sort` is stable) and remove the oldest 25 %, rounded up;
the surviving entries keep their storage order. -/
def evictStorageTier (m : List (String × CacheEntry)) :
    List (String × CacheEntry) :=
  let sorted := m.mergeSort (fun a b => decide (a.2.lastAccess ≤ b.2.lastAccess))
  let toRemove := (m.length + 3) / 4
  let victims := (sorted.take toRemove).map Prod.fst
  m.filter (fun p => ¬(victims.contains p.1))

/-- `setSessionStorageCache`: batch-evict at capacity, then `setItem`. -/
def setSessionStorageCache (m : List (String × CacheEntry))
    (k : String) (e : CacheEntry) : List (String × CacheEntry) :=
  let m' := if sessionMaxSize ≤ m.length then evictStorageTier m else m
  alSet m' k e

/-- `setLocalStorageCache`: batch-evict at capacity, then `setItem`. -/
def setLocalStorageCache (m : List (String × CacheEntry))
    (k : String) (e : CacheEntry) : List (String × CacheEntry) :=
  let m' := if localMaxSize ≤ m.length then evictStorageTier m else m
  alSet m' k e

/-- `setAutoCache`: pick the tier by `JSON.stringify(entry.value).length` —
note the entry's value is already the serialized string, so the measured
quantity is the serialized form re-quoted and re-escaped. -/
def setAutoCache (st : CacheState) (now : ℤ) (k : String) (e : CacheEntry) :
    CacheState :=
  let dataSize := (jsonQuote e.value).length
  if dataSize < 1024 then
    { st with memoryCache := setMemoryCache now st.memoryCache k e }
  else if dataSize < 10240 then
    { st with sessionStore := setSessionStorageCache st.sessionStore k e }
  else
    { st with localStore := setLocalStorageCache st.localStore k e }

/-- `CacheManager.set`. -/
def cmSet (st : CacheState) (now : ℤ) (k : String) (value : JSVal)
    (strategy : Strategy) (ttlOpt : Option ℤ) (prio : String) : CacheState :=
  let e := mkEntry now value strategy ttlOpt prio
  match strategy with
  | .memory => { st with memoryCache := setMemoryCache now st.memoryCache k e }
  | .localStorage => { st with localStore := setLocalStorageCache st.localStore k e }
  | .sessionStorage => { st with sessionStore := setSessionStorageCache st.sessionStore k e }
  | .auto => setAutoCache st now k e

/-- Which tier the `||` chain of `CacheManager.get` found an entry in. -/
inductive TierHit where
  | memoryHit
  | sessionHit
  | durableHit
deriving DecidableEq, Repr

/-- The entry lookup of `CacheManager.get`: for `auto`, the first tier that
merely HAS an entry wins (the `||` chain tests presence, not validity),
probing memory, then sessionStorage, then localStorage. -/
def cmLookup (st : CacheState) (k : String) :
    Strategy → Option (TierHit × CacheEntry)
  | .auto =>
    match alGet st.memoryCache k with
    | some e => some (.memoryHit, e)
    | none =>
      match alGet st.sessionStore k with
      | some e => some (.sessionHit, e)
      | none => (alGet st.localStore k).map (fun e => (.durableHit, e))
  | .memory => (alGet st.memoryCache k).map (fun e => (.memoryHit, e))
  | .localStorage => (alGet st.localStore k).map (fun e => (.durableHit, e))
  | .sessionStorage => (alGet st.sessionStore k).map (fun e => (.sessionHit, e))

/-- `CacheManager.get`: on a valid hit the code mutates the entry object's
`accessCount`/`lastAccess` and returns the deserialized value (here: the
serialized payload).  The mutation persists only when the entry came from
the in-memory `Map`; an entry from a browser storage is a freshly parsed
copy that is never written back, so that tier's backing store is unchanged. -/
def cmGet (st : CacheState) (now : ℤ) (k : String) (strategy : Strategy) :
    CacheState × Option String :=
  match cmLookup st k strategy with
  | some (tier, e) =>
    if isValidEntry now e then
      let bumped := { e with accessCount := e.accessCount + 1, lastAccess := now }
      match tier with
      | .memoryHit => ({ st with memoryCache := alSet st.memoryCache k bumped }, some e.value)
      | .sessionHit => (st, some e.value)
      | .durableHit => (st, some e.value)
    else (st, none)
  | none => (st, none)

/-! ### DataManager (`src/unnamed/part_000`) -/

/-- The runtime type tags a schema rule can carry. -/
inductive FieldType where
  | tString
  | tNumber
  | tDate
deriving DecidableEq, Repr

/-- The three regexes appearing in the schemas. -/
inductive Pat where
  | dsrIdPat
  | deIdPat
  | logDatePat
deriving DecidableEq, Repr

/-- Regex matching for the three schema patterns:
`^DSR\d{3}$`, `^DE\d{3}$` and `^\d{1,2}-[A-Za-z]{3}$`. -/
def matchesPat : Pat → String → Bool
  | .dsrIdPat, s =>
    match s.data with
    | 'D' :: 'S' :: 'R' :: d1 :: d2 :: d3 :: [] => d1.isDigit && d2.isDigit && d3.isDigit
    | _ => false
  | .deIdPat, s =>
    match s.data with
    | 'D' :: 'E' :: d1 :: d2 :: d3 :: [] => d1.isDigit && d2.isDigit && d3.isDigit
    | _ => false
  | .logDatePat, s =>
    let isAlpha := fun (c : Char) => c.isAlpha
    match s.data with
    | d1 :: '-' :: a :: b :: c :: [] => d1.isDigit && isAlpha a && isAlpha b && isAlpha c
    | d1 :: d2 :: '-' :: a :: b :: c :: [] =>
      d1.isDigit && d2.isDigit && isAlpha a && isAlpha b && isAlpha c
    | _ => false

/-- A schema field rule, as declared at store registration time. -/
structure FieldRule where
  type : FieldType
  required : Bool := false
  minLength : Option ℕ := none
  maxLength : Option ℕ := none
  min : Option ℚ := none
  max : Option ℚ := none
  pattern : Option Pat := none
  enum : Option (List String) := none
deriving Repr

/-- A store schema: field name to rule, in declaration order. -/
abbrev Schema := List (String × FieldRule)

/-- The `sales` store schema. -/
def salesSchema : Schema :=
  [ ("id", { type := .tString, required := true }),
    ("name", { type := .tString, required := true, minLength := some 2, maxLength := some 50 }),
    ("monthlyTarget", { type := .tNumber, required := true, min := some 0, max := some 999999 }),
    ("mtdTarget", { type := .tNumber, required := true, min := some 0, max := some 999999 }),
    ("mtdActual", { type := .tNumber, required := true, min := some 0, max := some 999999 }),
    ("createdAt", { type := .tDate, required := true }),
    ("updatedAt", { type := .tDate, required := true }) ]

/-- The `dsr` store schema. -/
def dsrSchema : Schema :=
  [ ("id", { type := .tString, required := true }),
    ("name", { type := .tString, required := true, minLength := some 2, maxLength := some 50 }),
    ("dsrId", { type := .tString, required := true, pattern := some .dsrIdPat }),
    ("cluster", { type := .tString, required := true,
                  enum := some ["North", "South", "East", "West"] }),
    ("captainName", { type := .tString, required := true, minLength := some 2, maxLength := some 50 }),
    ("lastMonthActual", { type := .tNumber, required := true, min := some 0, max := some 999999 }),
    ("thisMonthActual", { type := .tNumber, required := true, min := some 0, max := some 999999 }),
    ("slab", { type := .tString, required := true, enum := some ["Gold", "Silver", "Bronze"] }),
    ("createdAt", { type := .tDate, required := true }),
    ("updatedAt", { type := .tDate, required := true }) ]

/-- The `de` store schema. -/
def deSchema : Schema :=
  [ ("id", { type := .tString, required := true }),
    ("name", { type := .tString, required := true, minLength := some 2, maxLength := some 50 }),
    ("deId", { type := .tString, required := true, pattern := some .deIdPat }),
    ("region", { type := .tString, required := true,
                 enum := some ["North", "South", "East", "West"] }),
    ("captainName", { type := .tString, required := true, minLength := some 2, maxLength := some 50 }),
    ("lastMonthActual", { type := .tNumber, required := true, min := some 0, max := some 999999 }),
    ("thisMonthActual", { type := .tNumber, required := true, min := some 0, max := some 999999 }),
    ("slab", { type := .tString, required := true, enum := some ["Gold", "Silver", "Bronze"] }),
    ("createdAt", { type := .tDate, required := true }),
    ("updatedAt", { type := .tDate, required := true }) ]

/-- The `salesLog` store schema. -/
def salesLogSchema : Schema :=
  [ ("id", { type := .tString, required := true }),
    ("date", { type := .tString, required := true, pattern := some .logDatePat }),
    ("captainA", { type := .tNumber, required := true, min := some 0, max := some 999999 }),
    ("captainB", { type := .tNumber, required := true, min := some 0, max := some 999999 }),
    ("captainC", { type := .tNumber, required := true, min := some 0, max := some 999999 }),
    ("captainD", { type := .tNumber, required := true, min := some 0, max := some 999999 }),
    ("total", { type := .tNumber, required := true, min := some 0, max := some 999999 }),
    ("createdAt", { type := .tDate, required := true }),
    ("updatedAt", { type := .tDate, required := true }) ]

/-- The registered store names, in `dataStores` insertion order. -/
def storeNames : List String := ["sales", "dsr", "de", "salesLog"]

/-- The `dataStores` schema registry set up by `setupDataStores`. -/
def lookupSchema : String → Option Schema
  | "sales" => some salesSchema
  | "dsr" => some dsrSchema
  | "de" => some deSchema
  | "salesLog" => some salesLogSchema
  | _ => none

/-- A per-store business rule: the field's value and the whole record in,
`none` for valid or the error message for invalid. -/
abbrev BizRule := JSVal → JSRecord → Option String

/-- `sales` rule on `monthlyTarget`: must not be below `mtdTarget`. -/
def salesMonthlyTargetRule : BizRule := fun value record =>
  if jsLt value (getField record "mtdTarget") then
    some "Monthly target must be greater than or equal to MTD target"
  else none

/-- `sales` rule on `mtdActual`: must not exceed `monthlyTarget`. -/
def salesMtdActualRule : BizRule := fun value record =>
  if jsGt value (getField record "monthlyTarget") then
    some "MTD actual cannot exceed monthly target"
  else none

/-- `dsr` rule on `thisMonthActual`: the code computes
`(value - lastMonthActual) / lastMonthActual` with no zero-baseline guard
and rejects when the quotient exceeds 0.5 — a zero baseline therefore gives
Infinity (or NaN for `0/0`), not the 0 the spec prescribes. -/
def dsrThisMonthActualRule : BizRule := fun value record =>
  let lastVal := jsToNum (getField record "lastMonthActual")
  let growthRate := jsDiv (jsSub (jsToNum value) lastVal) lastVal
  if jsNumLt (.fin 1 2) growthRate then
    some "Growth rate cannot exceed 50%"
  else none

/-- The `validationRules` registry set up by `setupValidationRules`. -/
def lookupBizRules : String → List (String × BizRule)
  | "sales" => [("monthlyTarget", salesMonthlyTargetRule), ("mtdActual", salesMtdActualRule)]
  | "dsr" => [("thisMonthActual", dsrThisMonthActualRule)]
  | _ => []

/-- The required-presence test: the field is `undefined`, `null` or `''`. -/
def jsEmptyVal (v : JSVal) : Bool :=
  v = JSVal.vUndefined || v = JSVal.vNull || v = JSVal.vStr ""

/-- The `typeof`-based type check of `validateData` (an `else if` chain, so
exactly one message can arise from it). -/
def typeErrs (field : String) (rules : FieldRule) (v : JSVal) : List String :=
  match rules.type with
  | .tString => match v with
    | .vStr _ => []
    | _ => [field ++ " must be a string"]
  | .tNumber => match v with
    | .vNum _ => []
    | _ => [field ++ " must be a number"]
  | .tDate => match v with
    | .vDate _ => []
    | _ => [field ++ " must be a date"]

/-- The length checks: `rules.minLength && value.length < rules.minLength`
(and the `maxLength` twin).  `.length` of a non-string is `undefined` and
every comparison with `undefined` is false; a zero bound is falsy and
disables the check. -/
def lengthErrs (field : String) (rules : FieldRule) (v : JSVal) : List String :=
  (match rules.minLength with
    | some ml =>
      if ml ≠ 0 && (match v with | .vStr s => decide (s.length < ml) | _ => false) then
        [field ++ " must be at least " ++ toString ml ++ " characters"]
      else []
    | none => []) ++
  (match rules.maxLength with
    | some ml =>
      if ml ≠ 0 && (match v with | .vStr s => decide (ml < s.length) | _ => false) then
        [field ++ " must be at most " ++ toString ml ++ " characters"]
      else []
    | none => [])

/-- The range checks: `rules.min !== undefined && value < rules.min` (and
the `max` twin), using the JS relational comparison. -/
def rangeErrs (field : String) (rules : FieldRule) (v : JSVal) : List String :=
  (match rules.min with
    | some mn =>
      if jsLt v (.vNum mn) then [field ++ " must be at least " ++ ratToStr mn] else []
    | none => []) ++
  (match rules.max with
    | some mx =>
      if jsGt v (.vNum mx) then [field ++ " must be at most " ++ ratToStr mx] else []
    | none => [])

/-- The pattern check: `rules.pattern && !rules.pattern.test(value)`;
`test` coerces its argument to a string. -/
def patternErrs (field : String) (rules : FieldRule) (v : JSVal) : List String :=
  match rules.pattern with
  | some p => if matchesPat p (jsToString v) then [] else [field ++ " format is invalid"]
  | none => []

/-- The enum check: `rules.enum && !rules.enum.includes(value)`;
`includes` uses strict equality, so only an exactly matching string passes. -/
def enumErrs (field : String) (rules : FieldRule) (v : JSVal) : List String :=
  match rules.enum with
  | some es =>
    if (match v with | .vStr s => es.contains s | _ => false) then []
    else [field ++ " must be one of: " ++ String.intercalate ", " es]
  | none => []

/-- One iteration of the field loop in `validateData`: a failed required
check pushes its error and `continue`s; otherwise, for a defined non-null
value, the type, length, range, pattern and enum checks all run and each
failing one appends its own error. -/
def validateField (field : String) (rules : FieldRule) (data : JSRecord) :
    List String :=
  let v := getField data field
  if rules.required && jsEmptyVal v then
    [field ++ " is required"]
  else if ¬(v = JSVal.vUndefined) ∧ ¬(v = JSVal.vNull) then
    typeErrs field rules v ++ lengthErrs field rules v ++ rangeErrs field rules v ++
      patternErrs field rules v ++ enumErrs field rules v
  else []

/-- Concatenation of a list of lists. -/
def listJoin (l : List (List α)) : List α := l.foldr (· ++ ·) []

/-- The business-rule loop of `validateData`: each registered rule whose
field is defined runs against the field's value and the whole record. -/
def bizErrsOf (storeName : String) (data : JSRecord) : List String :=
  (lookupBizRules storeName).foldl
    (fun acc p =>
      if getField data p.1 = JSVal.vUndefined then acc
      else match p.2 (getField data p.1) data with
        | some msg => acc ++ [msg]
        | none => acc) []

/-- The result of `validateData`. -/
structure VResult where
  valid : Bool
  errors : List String
deriving DecidableEq, Repr

/-- `DataManager.validateData`: an unknown store yields
`{valid: false, errors: ['Store not found']}` (no throw); otherwise all
field-level checks run in schema order, then the business rules. -/
def validateData (storeName : String) (data : JSRecord) : VResult :=
  match lookupSchema storeName with
  | none => { valid := false, errors := ["Store not found"] }
  | some schema =>
    let errs := listJoin (schema.map (fun p => validateField p.1 p.2 data)) ++
      bizErrsOf storeName data
    { valid := errs.isEmpty, errors := errs }

/-! ### Record CRUD coordinator and persistence sync -/

/-- DataManager state: the per-store record lists (the registry itself is
the fixed four-store map built by `setupDataStores`; a store absent from
the override list simply has no records yet), the cache entries the manager
pushes under `"<storeName>-data"` (modelling the `cacheManager.set` calls on
the keys the data layer owns), and the durable `data-<storeName>` snapshots
written by `saveAllData` (held as the saved record lists; the JSON text is
accounted for by applying the round trip `rtList` on load). -/
structure DMState where
  stores : List (String × List JSRecord)
  dmCache : List (String × List JSRecord)
  durable : List (String × List JSRecord)
deriving Repr

/-- `dataStores.get(storeName).data`: defined exactly for registered
stores. -/
def lookupData (st : DMState) (storeName : String) : Option (List JSRecord) :=
  if (lookupSchema storeName).isSome then some (alGetD st.stores storeName [])
  else none

/-- The record enrichment at the top of `addData`:
`{...data, id: data.id || generateId(), createdAt: now, updatedAt: now}`. -/
def enrich (data : JSRecord) (now : ℤ) (genId : String) : JSRecord :=
  let idVal := if jsTruthy (getField data "id") then getField data "id" else .vStr genId
  recSet (recSet (recSet data "id" idVal) "createdAt" (.vDate now)) "updatedAt" (.vDate now)

/-- `DataManager.addData`, with the generated id and the clock passed in
explicitly.  Thrown errors are `Except.error`; every throw happens before
any mutation, and the success path appends the record and refreshes the
`"<storeName>-data"` cache entry. -/
def addData (st : DMState) (now : ℤ) (genId : String) (storeName : String)
    (data : JSRecord) : DMState × Except String JSRecord :=
  match lookupData st storeName with
  | none => (st, .error ("Store " ++ storeName ++ " not found"))
  | some records =>
    let enriched := enrich data now genId
    let validation := validateData storeName enriched
    if validation.valid then
      if records.any (fun item => getField item "id" = getField enriched "id") then
        (st, .error ("Record with id " ++ jsToString (getField enriched "id") ++
          " already exists"))
      else
        let newRecords := records ++ [enriched]
        ({ st with stores := alSet st.stores storeName newRecords,
                   dmCache := alSet st.dmCache (storeName ++ "-data") newRecords },
         .ok enriched)
    else
      (st, .error ("Validation failed: " ++ String.intercalate ", " validation.errors))

/-- `DataManager.updateData`: locate by id, shallow-merge the patch, restamp
`updatedAt`, revalidate the whole merged record, then replace in place and
refresh the cache; every throw happens before any mutation. -/
def updateData (st : DMState) (now : ℤ) (storeName : String) (id : JSVal)
    (updates : JSRecord) : DMState × Except String JSRecord :=
  match lookupData st storeName with
  | none => (st, .error ("Store " ++ storeName ++ " not found"))
  | some records =>
    match records.findIdx? (fun item => getField item "id" = id) with
    | none => (st, .error ("Record with id " ++ jsToString id ++ " not found"))
    | some index =>
      let updated := recSet (mergeRec (records.getD index []) updates) "updatedAt" (.vDate now)
      let validation := validateData storeName updated
      if validation.valid then
        let newRecords := records.set index updated
        ({ st with stores := alSet st.stores storeName newRecords,
                   dmCache := alSet st.dmCache (storeName ++ "-data") newRecords },
         .ok updated)
      else
        (st, .error ("Validation failed: " ++ String.intercalate ", " validation.errors))

/-- `DataManager.deleteData`: locate by id, splice it out, refresh the
cache, return the removed record. -/
def deleteData (st : DMState) (storeName : String) (id : JSVal) :
    DMState × Except String JSRecord :=
  match lookupData st storeName with
  | none => (st, .error ("Store " ++ storeName ++ " not found"))
  | some records =>
    match records.findIdx? (fun item => getField item "id" = id) with
    | none => (st, .error ("Record with id " ++ jsToString id ++ " not found"))
    | some index =>
      let removed := records.getD index []
      let newRecords := records.eraseIdx index
      ({ st with stores := alSet st.stores storeName newRecords,
                 dmCache := alSet st.dmCache (storeName ++ "-data") newRecords },
       .ok removed)

/-- The options object of `queryData`.  `limit`/`offset` are JS numbers used
in `slice`; the claims only exercise natural values, which the model fixes. -/
structure QueryOptions where
  filter : Option (JSRecord → Bool) := none
  sort : Option (List (String × String)) := none
  limit : Option ℕ := none
  offset : Option ℕ := none

/-- The multi-key comparator inside `queryData`'s sort: first non-zero
field comparison wins, `'desc'` negates it. -/
def compareRecords (sortSpec : List (String × String)) (a b : JSRecord) : ℤ :=
  match sortSpec with
  | [] => 0
  | (field, dir) :: rest =>
    let aVal := getField a field
    let bVal := getField b field
    let comparison : ℤ := if jsLt aVal bVal then -1 else if jsLt bVal aVal then 1 else 0
    if comparison ≠ 0 then (if dir = "desc" then -comparison else comparison)
    else compareRecords rest a b

/-- The filter stage of `queryData`. -/
def applyFilter (f : Option (JSRecord → Bool)) (l : List JSRecord) : List JSRecord :=
  match f with
  | some p => l.filter p
  | none => l

/-- The sort stage of `queryData` (JS `Array.prototype.sort` is stable). -/
def applySort (s : Option (List (String × String))) (l : List JSRecord) :
    List JSRecord :=
  match s with
  | some spec => l.mergeSort (fun a b => decide (compareRecords spec a b ≤ 0))
  | none => l

/-- Truthiness of an optional numeric option: absent or zero is falsy. -/
def truthyOpt (o : Option ℕ) : Bool :=
  match o with
  | some n => n ≠ 0
  | none => false

/-- `x || d` on an optional numeric option. -/
def orDefault (o : Option ℕ) (d : ℕ) : ℕ :=
  match o with
  | some n => if n ≠ 0 then n else d
  | none => d

/-- `DataManager.queryData`: copy, filter, sort, then paginate — but the
pagination block runs only under `if (options.limit || options.offset)`,
a truthiness test, so a zero limit or offset does not trigger it. -/
def queryData (st : DMState) (storeName : String) (opts : QueryOptions) :
    Except String (List JSRecord) :=
  match lookupData st storeName with
  | none => .error ("Store " ++ storeName ++ " not found")
  | some records =>
    let r2 := applySort opts.sort (applyFilter opts.filter records)
    if truthyOpt opts.limit || truthyOpt opts.offset then
      let off := orDefault opts.offset 0
      let lim := orDefault opts.limit r2.length
      .ok ((r2.drop off).take lim)
    else .ok r2

/-- `DataManager.saveAllData`: write every registered store's record list
under `data-<storeName>` in durable storage (per-store isolation; the
stringify of these records cannot throw). -/
def saveAllData (st : DMState) : DMState :=
  let d' := storeNames.foldl
    (fun d n => alSet d ("data-" ++ n) (alGetD st.stores n [])) st.durable
  { st with durable := d' }

/-- Clearing every store's in-memory records. -/
def clearStores (st : DMState) : DMState := { st with stores := [] }

/-- `DataManager.loadAllData`: for every registered store, if a durable
`data-<storeName>` snapshot exists, parsing it replaces the record list
wholesale — so each loaded list is the JSON round trip `rtList` of what was
saved; a store with no snapshot keeps its records. -/
def loadAllData (st : DMState) : DMState :=
  let s' := storeNames.map (fun n =>
    (n, match alGet st.durable ("data-" ++ n) with
        | some blob => rtList blob
        | none => alGetD st.stores n []))
  { st with stores := s' }

/-! ### Operation sequences on the memory tier -/

/-- One `cacheManager.set(key, value, {strategy: 'memory', ...})` call,
with the `Date.now()` reading it observes. -/
structure MemOp where
  time : ℤ
  key : String
  value : JSVal
  ttlOpt : Option ℤ
  prio : String

/-- Execute one memory-strategy `set`. -/
def applyMemOp (st : CacheState) (op : MemOp) : CacheState :=
  cmSet st op.time op.key op.value .memory op.ttlOpt op.prio

/-- Execute a sequence of memory-strategy `set`s. -/
def runMemOps (st : CacheState) (ops : List MemOp) : CacheState :=
  ops.foldl applyMemOp st

/-! ### Concrete inputs used by the claim theorems -/

/-- A fully schema-valid `dsr` record with a zero `lastMonthActual`
baseline and a positive `thisMonthActual`. -/
def c1ZeroRec : JSRecord :=
  [ ("id", .vStr "1"), ("name", .vStr "John"), ("dsrId", .vStr "DSR001"),
    ("cluster", .vStr "North"), ("captainName", .vStr "Alice"),
    ("lastMonthActual", .vNum 0), ("thisMonthActual", .vNum 50),
    ("slab", .vStr "Gold"), ("createdAt", .vDate 0), ("updatedAt", .vDate 0) ]

/-- A fully schema-valid `dsr` record showing 60% month-over-month growth. -/
def c1HighGrowthRec : JSRecord :=
  [ ("id", .vStr "1"), ("name", .vStr "John"), ("dsrId", .vStr "DSR001"),
    ("cluster", .vStr "North"), ("captainName", .vStr "Alice"),
    ("lastMonthActual", .vNum 100), ("thisMonthActual", .vNum 160),
    ("slab", .vStr "Gold"), ("createdAt", .vDate 0), ("updatedAt", .vDate 0) ]

/-- An expired memory-tier entry (at time 1000: `1000 - 0 ≥ 10`). -/
def c2Expired : CacheEntry :=
  { value := "1", timestamp := 0, ttl := 10, priority := "normal",
    accessCount := 0, lastAccess := 0 }

/-- A still-valid durable-tier entry (at time 1000: `1000 - 900 < 10000`). -/
def c2Valid : CacheEntry :=
  { value := "2", timestamp := 900, ttl := 10000, priority := "normal",
    accessCount := 0, lastAccess := 900 }

/-- Memory holds an expired entry for `"k"`, durable a valid one. -/
def c2State : CacheState :=
  { memoryCache := [("k", c2Expired)], sessionStore := [],
    localStore := [("k", c2Valid)] }

/-- A fresh durable-tier entry used by the C2 witness. -/
def c2OnlyDurable : CacheState :=
  { memoryCache := [], sessionStore := [], localStore := [("k", c2Valid)] }

/-- 101 memory-strategy `set`s of distinct keys, all within the same
`Date.now()` millisecond. -/
def c3TieOps : List MemOp :=
  (List.range 101).map (fun i =>
    { time := 5, key := "k" ++ toString i, value := JSVal.vNum 1,
      ttlOpt := none, prio := "normal" })

/-- A memory-tier entry whose `lastAccess` is `i`. -/
def c3Entry (i : ℕ) : CacheEntry :=
  { value := "1", timestamp := (i : ℤ), ttl := 100000, priority := "normal",
    accessCount := 0, lastAccess := (i : ℤ) }

/-- A memory tier at capacity (100 distinct keys, strictly increasing
`lastAccess`, the oldest being `"k0"`). -/
def c3Full : CacheState :=
  { memoryCache := (List.range 100).map (fun i => ("k" ++ toString i, c3Entry i)),
    sessionStore := [], localStore := [] }

/-- A `dsr` record whose `dsrId` is the number 5 instead of a string. -/
def c4BadIdRec : JSRecord :=
  [ ("id", .vStr "1"), ("name", .vStr "John"), ("dsrId", .vNum 5),
    ("cluster", .vStr "North"), ("captainName", .vStr "Alice"),
    ("lastMonthActual", .vNum 100), ("thisMonthActual", .vNum 110),
    ("slab", .vStr "Gold"), ("createdAt", .vDate 0), ("updatedAt", .vDate 0) ]

/-- The `name` rule of the `sales` schema (used by the C4 witness). -/
def c4NameRule : FieldRule :=
  { type := .tString, required := true, minLength := some 2, maxLength := some 50 }

/-- The `dsrId` rule of the `dsr` schema (used by the C4 witness). -/
def c4DsrIdRule : FieldRule :=
  { type := .tString, required := true, pattern := some .dsrIdPat }

/-- A valid `sales` record already in a store. -/
def c5ExistingRec : JSRecord :=
  [ ("id", .vStr "1"), ("name", .vStr "Jo"), ("monthlyTarget", .vNum 100),
    ("mtdTarget", .vNum 50), ("mtdActual", .vNum 40),
    ("createdAt", .vDate 0), ("updatedAt", .vDate 0) ]

/-- A `sales` store holding `c5ExistingRec`. -/
def c5State : DMState :=
  { stores := [("sales", [c5ExistingRec])], dmCache := [], durable := [] }

/-- Input for `addData` that is missing the required `name` field. -/
def c5NoNameData : JSRecord :=
  [ ("monthlyTarget", .vNum 100), ("mtdTarget", .vNum 50), ("mtdActual", .vNum 40) ]

/-- Valid `addData` input whose explicit id collides with `c5ExistingRec`. -/
def c5DupIdData : JSRecord :=
  [ ("id", .vStr "1"), ("name", .vStr "Al"), ("monthlyTarget", .vNum 90),
    ("mtdTarget", .vNum 40), ("mtdActual", .vNum 30) ]

/-- A `sales` store whose single record carries `Date` timestamps. -/
def c6State : DMState :=
  { stores := [("sales", [c5ExistingRec])], dmCache := [], durable := [] }

/-- A 1021-character string: its JSON serialization is 1023 characters,
under the 1 KB threshold, yet `setAutoCache` measures 1027. -/
def c7Str1021 : String := String.mk (List.replicate 1021 'a')

/-- A short string for the C7 witness memory branch. -/
def c7Small : String := "x"

/-- A 2000-character string for the C7 witness session branch. -/
def c7Mid : String := String.mk (List.replicate 2000 'a')

/-- A 10300-character string for the C7 witness durable branch. -/
def c7Big : String := String.mk (List.replicate 10300 'a')

/-- A valid sessionStorage-tier entry with zero access statistics. -/
def c8Entry : CacheEntry :=
  { value := "9", timestamp := 100, ttl := 1000000, priority := "normal",
    accessCount := 0, lastAccess := 100 }

/-- sessionStorage holds `c8Entry` under `"k"`. -/
def c8State : CacheState :=
  { memoryCache := [], sessionStore := [("k", c8Entry)], localStore := [] }

/-- The memory tier holds `c8Entry` under `"k"` (for the C8 witness). -/
def c8MemState : CacheState :=
  { memoryCache := [("k", c8Entry)], sessionStore := [], localStore := [] }

/-- A `sales` store with one record, used by the C9 witness. -/
def c9State : DMState :=
  { stores := [("sales", [c5ExistingRec])], dmCache := [], durable := [] }

/-! ## Lemmas about the ordered-map operations -/

theorem mem_alSet {m : List (String × β)} {k : String} {v : β} {p : String × β}
    (hp : p ∈ alSet m k v) : p ∈ m ∨ p = (k, v) := by
  unfold alSet at hp
  split at hp
  · rcases List.mem_map.1 hp with ⟨q, hq, hq2⟩
    by_cases hqk : q.1 = k
    · right; rw [if_pos hqk] at hq2; exact hq2.symm
    · left; rw [if_neg hqk] at hq2; exact hq2 ▸ hq
  · rcases List.mem_append.1 hp with h | h
    · exact Or.inl h
    · exact Or.inr (by simpa using h)

theorem alSet_length_le (m : List (String × β)) (k : String) (v : β) :
    (alSet m k v).length ≤ m.length + 1 := by
  unfold alSet
  split
  · simp
  · simp

theorem alSet_keys_nodup {m : List (String × β)} {k : String} {v : β}
    (h : (alKeys m).Nodup) : (alKeys (alSet m k v)).Nodup := by
  unfold alSet
  split
  · have heq : alKeys (m.map fun p => if p.1 = k then (k, v) else p) = alKeys m := by
      unfold alKeys
      rw [List.map_map]
      apply List.map_congr_left
      intro p _
      by_cases hpk : p.1 = k
      · simp [hpk]
      · simp [hpk]
    rw [heq]; exact h
  · rename_i hany
    have hk : k ∉ alKeys m := by
      intro hmem
      rcases List.mem_map.1 hmem with ⟨q, hq, hfst⟩
      exact hany (List.any_eq_true.2 ⟨q, hq, by simp [hfst]⟩)
    unfold alKeys
    rw [List.map_append]
    refine List.Nodup.append h (List.nodup_singleton k) ?_
    intro a ha hb
    simp only [List.map_cons, List.map_nil, List.mem_singleton] at hb
    exact hk (hb ▸ ha)

theorem alSet_of_not_mem {m : List (String × β)} {k : String} (v : β)
    (h : k ∉ alKeys m) : alSet m k v = m ++ [(k, v)] := by
  unfold alSet
  rw [if_neg]
  intro hany
  rcases List.any_eq_true.1 hany with ⟨q, hq, hq2⟩
  simp only [decide_eq_true_eq] at hq2
  exact h (hq2 ▸ List.mem_map.2 ⟨q, hq, rfl⟩)

theorem mem_alDelete {m : List (String × β)} {k : String} {p : String × β}
    (hp : p ∈ alDelete m k) : p ∈ m :=
  (List.mem_filter.1 hp).1

theorem not_mem_alKeys_alDelete (m : List (String × β)) (k : String) :
    k ∉ alKeys (alDelete m k) := by
  intro h
  rcases List.mem_map.1 h with ⟨q, hq, hfst⟩
  have h2 := (List.mem_filter.1 hq).2
  simp only [decide_eq_true_eq] at h2
  exact h2 hfst

theorem alKeys_alDelete_subset {m : List (String × β)} {k kd : String}
    (h : k ∈ alKeys (alDelete m kd)) : k ∈ alKeys m := by
  rcases List.mem_map.1 h with ⟨q, hq, hfst⟩
  exact hfst ▸ List.mem_map.2 ⟨q, mem_alDelete hq, rfl⟩

theorem mem_alKeys_alDelete {m : List (String × β)} {k kd : String}
    (h : k ∈ alKeys m) (hne : k ≠ kd) : k ∈ alKeys (alDelete m kd) := by
  rcases List.mem_map.1 h with ⟨q, hq, hfst⟩
  refine hfst ▸ List.mem_map.2 ⟨q, List.mem_filter.2 ⟨hq, ?_⟩, rfl⟩
  simp only [decide_eq_true_eq]
  intro hqk
  exact hne (hfst ▸ hqk ▸ rfl)

theorem alDelete_eq_of_not_mem {m : List (String × β)} {k : String}
    (h : k ∉ alKeys m) : alDelete m k = m := by
  unfold alDelete
  apply List.filter_eq_self.2
  intro p hp
  simp only [decide_eq_true_eq]
  intro hk
  exact h (hk ▸ List.mem_map.2 ⟨p, hp, rfl⟩)

theorem alDelete_length {m : List (String × β)} {k : String}
    (hnd : (alKeys m).Nodup) (hk : k ∈ alKeys m) :
    (alDelete m k).length + 1 = m.length := by
  induction m with
  | nil => simp [alKeys] at hk
  | cons q m ih =>
    simp only [alKeys, List.map_cons, List.nodup_cons] at hnd
    simp only [alKeys, List.map_cons, List.mem_cons] at hk
    rcases hk with hk | hk
    · unfold alDelete
      rw [List.filter_cons]
      have hni : k ∉ alKeys m := hk ▸ hnd.1
      rw [if_neg (by simp [hk])]
      have := alDelete_eq_of_not_mem hni
      unfold alDelete at this
      rw [this]
      simp
    · have hne : ¬(q.1 = k) := fun h => hnd.1 (h ▸ hk)
      unfold alDelete
      rw [List.filter_cons, if_pos (by simp [hne])]
      have := ih hnd.2 hk
      unfold alDelete at this
      simp only [List.length_cons]
      omega

theorem alNodup_mem_unique {m : List (String × β)} {k : String} {a b : β}
    (hnd : (alKeys m).Nodup) (ha : (k, a) ∈ m) (hb : (k, b) ∈ m) : a = b := by
  induction m with
  | nil => cases ha
  | cons q m ih =>
    simp only [alKeys, List.map_cons, List.nodup_cons] at hnd
    rcases List.mem_cons.1 ha with ha' | ha' <;> rcases List.mem_cons.1 hb with hb' | hb'
    · rw [← ha'] at hb'; exact (Prod.mk.injEq .. ▸ hb').2.symm
    · exact absurd (ha' ▸ List.mem_map.2 ⟨(k, b), hb', rfl⟩ :
        q.1 ∈ alKeys m) hnd.1
    · exact absurd (hb' ▸ List.mem_map.2 ⟨(k, a), ha', rfl⟩ :
        q.1 ∈ alKeys m) hnd.1
    · exact ih hnd.2 ha' hb'

/-! ## Lemmas about the memory-tier eviction scan -/

theorem evictStep_foldl_const :
    ∀ (l : List (String × CacheEntry)) (t0 : ℤ) (r0 : Option String),
      (∀ p ∈ l, ¬(p.2.lastAccess < t0)) →
      l.foldl evictStep (t0, r0) = (t0, r0) := by
  intro l
  induction l with
  | nil => intro _ _ _; rfl
  | cons q l ih =>
    intro t0 r0 h
    rw [List.foldl_cons,
      show evictStep (t0, r0) q = (t0, r0) from
        by unfold evictStep; exact if_neg (h q (List.mem_cons_self q l))]
    exact ih t0 r0 (fun p hp => h p (List.mem_cons_of_mem q hp))

theorem evictStep_foldl_min {kmin : String} {emin : CacheEntry} :
    ∀ (l : List (String × CacheEntry)) (t0 : ℤ) (r0 : Option String),
      emin.lastAccess < t0 → (kmin, emin) ∈ l →
      (∀ p ∈ l, p = (kmin, emin) ∨ emin.lastAccess < p.2.lastAccess) →
      l.foldl evictStep (t0, r0) = (emin.lastAccess, some kmin) := by
  intro l
  induction l with
  | nil => intro t0 r0 _ hmem _; cases hmem
  | cons q l ih =>
    intro t0 r0 hlt hmem hall
    rw [List.foldl_cons]
    by_cases hq : q = (kmin, emin)
    · subst hq
      rw [show evictStep (t0, r0) (kmin, emin) = (emin.lastAccess, some kmin) from
        by unfold evictStep; exact if_pos hlt]
      apply evictStep_foldl_const
      intro p hp
      rcases hall p (List.mem_cons_of_mem _ hp) with h | h
      · rw [h]; simp
      · omega
    · have hmem' : (kmin, emin) ∈ l := by
        rcases List.mem_cons.1 hmem with h | h
        · exact absurd h.symm hq
        · exact h
      have hql : emin.lastAccess < q.2.lastAccess := by
        rcases hall q (List.mem_cons_self q l) with h | h
        · exact absurd h hq
        · exact h
      have hall' : ∀ p ∈ l, p = (kmin, emin) ∨ emin.lastAccess < p.2.lastAccess :=
        fun p hp => hall p (List.mem_cons_of_mem q hp)
      unfold evictStep
      split
      · exact ih q.2.lastAccess (some q.1) hql hmem' hall'
      · exact ih t0 r0 hlt hmem' hall'

theorem evictStep_foldl_mem :
    ∀ (l : List (String × CacheEntry)) (t0 : ℤ) (r0 : Option String) (k : String),
      (l.foldl evictStep (t0, r0)).2 = some k → r0 = some k ∨ k ∈ alKeys l := by
  intro l
  induction l with
  | nil => intro _ r0 k h; exact Or.inl h
  | cons q l ih =>
    intro t0 r0 k h
    rw [List.foldl_cons] at h
    have htail : ∀ r0', (l.foldl evictStep (t0, r0')).2 = some k →
        r0' = some k ∨ k ∈ alKeys (q :: l) := by
      intro r0' h'
      rcases ih t0 r0' k h' with h'' | h''
      · exact Or.inl h''
      · exact Or.inr (List.mem_map.2 (by
          rcases List.mem_map.1 h'' with ⟨p, hp, hfst⟩
          exact ⟨p, List.mem_cons_of_mem q hp, hfst⟩))
    by_cases hq : q.2.lastAccess < t0
    · rw [show evictStep (t0, r0) q = (q.2.lastAccess, some q.1) from
        by unfold evictStep; exact if_pos hq] at h
      rcases ih q.2.lastAccess (some q.1) k h with h' | h'
      · have hqk : q.1 = k := Option.some.inj h'
        exact Or.inr (hqk ▸ List.mem_map.2 ⟨q, List.mem_cons_self q l, rfl⟩)
      · exact Or.inr (List.mem_map.2 (by
          rcases List.mem_map.1 h' with ⟨p, hp, hfst⟩
          exact ⟨p, List.mem_cons_of_mem q hp, hfst⟩))
    · rw [show evictStep (t0, r0) q = (t0, r0) from
        by unfold evictStep; exact if_neg hq] at h
      exact htail r0 h

theorem evictStep_foldl_some :
    ∀ (l : List (String × CacheEntry)) (t0 : ℤ) (k0 : String),
      ∃ k, (l.foldl evictStep (t0, some k0)).2 = some k := by
  intro l
  induction l with
  | nil => intro t0 k0; exact ⟨k0, rfl⟩
  | cons q l ih =>
    intro t0 k0
    rw [List.foldl_cons]
    unfold evictStep
    split
    · exact ih _ _
    · exact ih _ _

theorem evictStep_foldl_finds :
    ∀ (l : List (String × CacheEntry)) (t0 : ℤ) (r0 : Option String),
      (∃ p ∈ l, p.2.lastAccess < t0) →
      ∃ k, (l.foldl evictStep (t0, r0)).2 = some k := by
  intro l
  induction l with
  | nil => intro _ _ h; rcases h with ⟨_, h, _⟩; cases h
  | cons q l ih =>
    intro t0 r0 hw
    rw [List.foldl_cons]
    by_cases hq : q.2.lastAccess < t0
    · rw [show evictStep (t0, r0) q = (q.2.lastAccess, some q.1) from
        by unfold evictStep; exact if_pos hq]
      exact evictStep_foldl_some l _ _
    · rw [show evictStep (t0, r0) q = (t0, r0) from
        by unfold evictStep; exact if_neg hq]
      rcases hw with ⟨p, hp, hplt⟩
      rcases List.mem_cons.1 hp with h | h
      · exact absurd (h ▸ hplt) hq
      · exact ih t0 r0 ⟨p, h, hplt⟩

theorem evictMemoryCache_sublist (now : ℤ) (m : List (String × CacheEntry)) :
    List.Sublist (evictMemoryCache now m) m := by
  unfold evictMemoryCache
  cases (evictScan now m).2
  · exact List.Sublist.refl m
  · exact List.filter_sublist m

theorem evictMemoryCache_length {now : ℤ} {m : List (String × CacheEntry)}
    (h1 : ∀ p ∈ m, p.2.lastAccess < now) (h2 : m ≠ [])
    (h3 : (alKeys m).Nodup) :
    (evictMemoryCache now m).length + 1 = m.length := by
  obtain ⟨q, hq⟩ := List.exists_mem_of_ne_nil m h2
  obtain ⟨k, hk⟩ := evictStep_foldl_finds m now none ⟨q, hq, h1 q hq⟩
  have hkm : k ∈ alKeys m := by
    rcases evictStep_foldl_mem m now none k hk with h | h
    · cases h
    · exact h
  unfold evictMemoryCache evictScan
  rw [hk]
  exact alDelete_length h3 hkm

theorem errorFstEq {c : Prop} [Decidable c] {stOk stErr : DMState}
    {x : JSRecord} {m e : String}
    (h : (if c then (stOk, Except.ok x) else (stErr, Except.error m)).2 =
      Except.error e) :
    (if c then (stOk, Except.ok x) else (stErr, Except.error m)).1 = stErr := by
  by_cases hc : c
  · rw [if_pos hc] at h
    exact absurd h (by simp)
  · rw [if_neg hc]

theorem setMemoryCache_bound {now : ℤ} {m : List (String × CacheEntry)}
    {k : String} {e : CacheEntry}
    (hnd : (alKeys m).Nodup) (hlen : m.length ≤ memoryMaxSize)
    (hold : ∀ p ∈ m, p.2.lastAccess < now) :
    (setMemoryCache now m k e).length ≤ memoryMaxSize ∧
    (alKeys (setMemoryCache now m k e)).Nodup ∧
    (∀ p ∈ setMemoryCache now m k e, p ∈ m ∨ p = (k, e)) := by
  unfold setMemoryCache
  by_cases hcap : memoryMaxSize ≤ m.length
  · rw [if_pos hcap]
    have hne : m ≠ [] := by
      intro h
      rw [h] at hcap
      simp [memoryMaxSize] at hcap
    have hev := evictMemoryCache_length hold hne hnd
    have hsub := evictMemoryCache_sublist now m
    have hnd' : (alKeys (evictMemoryCache now m)).Nodup :=
      List.Nodup.sublist (List.Sublist.map Prod.fst hsub) hnd
    refine ⟨?_, alSet_keys_nodup hnd', ?_⟩
    · show (alSet (evictMemoryCache now m) k e).length ≤ memoryMaxSize
      have := alSet_length_le (evictMemoryCache now m) k e
      omega
    · intro p hp
      rcases mem_alSet hp with h | h
      · exact Or.inl (hsub.mem h)
      · exact Or.inr h
  · rw [if_neg hcap]
    refine ⟨?_, alSet_keys_nodup hnd, ?_⟩
    · show (alSet m k e).length ≤ memoryMaxSize
      have := alSet_length_le m k e
      omega
    · intro p hp
      exact mem_alSet hp

theorem runMemOps_invariant :
    ∀ (ops : List MemOp) (st : CacheState),
      (alKeys st.memoryCache).Nodup →
      st.memoryCache.length ≤ memoryMaxSize →
      (∀ p ∈ st.memoryCache, ∀ op ∈ ops, p.2.lastAccess < op.time) →
      List.Pairwise (fun a b => a.time < b.time) ops →
      (runMemOps st ops).memoryCache.length ≤ memoryMaxSize := by
  intro ops
  induction ops with
  | nil => intro st _ h _ _; exact h
  | cons op ops ih =>
    intro st hnd hlen hold hpw
    have happ : (applyMemOp st op).memoryCache =
        setMemoryCache op.time st.memoryCache op.key
          (mkEntry op.time op.value .memory op.ttlOpt op.prio) := rfl
    obtain ⟨hb, hnd', hsub⟩ := @setMemoryCache_bound op.time st.memoryCache
      op.key (mkEntry op.time op.value .memory op.ttlOpt op.prio)
      hnd hlen (fun p hp => hold p hp op (List.mem_cons_self op ops))
    have hrun : runMemOps st (op :: ops) = runMemOps (applyMemOp st op) ops := rfl
    rw [hrun]
    apply ih
    · rw [happ]; exact hnd'
    · rw [happ]; exact hb
    · rw [happ]
      intro p hp op' hop'
      rcases hsub p hp with h | h
      · exact hold p h op' (List.mem_cons_of_mem op hop')
      · rw [h]
        exact (List.pairwise_cons.1 hpw).1 op' hop'
    · exact (List.pairwise_cons.1 hpw).2

/-! ## Claim C3 -/

/-- C3 (amended): provided every memory-strategy `set` observes a
`Date.now()` strictly later than all earlier operations' (so no entry's
`lastAccess` ties with the eviction scan's start time), the memory tier
never exceeds its capacity of 100 entries; and at capacity, inserting a
fresh key evicts exactly the entry with the strictly oldest `lastAccess`
before inserting, leaving 100 entries with only that oldest key missing.
(The unamended claim fails when timestamps tie: the scan's strict `<`
against `Date.now()` finds no victim and the tier grows past capacity.) -/
theorem C3_memory_capacity_amended :
    (∀ ops : List MemOp, List.Pairwise (fun a b => a.time < b.time) ops →
      (runMemOps emptyCache ops).memoryCache.length ≤ memoryMaxSize) ∧
    (∀ (st : CacheState) (now : ℤ) (kmin knew : String) (emin : CacheEntry)
        (v : JSVal) (ttlOpt : Option ℤ) (prio : String),
      st.memoryCache.length = memoryMaxSize →
      (alKeys st.memoryCache).Nodup →
      (∀ p ∈ st.memoryCache, p.2.lastAccess < now) →
      (kmin, emin) ∈ st.memoryCache →
      (∀ p ∈ st.memoryCache, p.1 ≠ kmin → emin.lastAccess < p.2.lastAccess) →
      knew ∉ alKeys st.memoryCache →
      (cmSet st now knew v .memory ttlOpt prio).memoryCache.length = memoryMaxSize ∧
      kmin ∉ alKeys (cmSet st now knew v .memory ttlOpt prio).memoryCache ∧
      knew ∈ alKeys (cmSet st now knew v .memory ttlOpt prio).memoryCache ∧
      (∀ k ∈ alKeys st.memoryCache, k ≠ kmin →
        k ∈ alKeys (cmSet st now knew v .memory ttlOpt prio).memoryCache)) := by
  constructor
  · intro ops hpw
    exact runMemOps_invariant ops emptyCache (by simp [emptyCache, alKeys])
      (by simp [emptyCache, memoryMaxSize]) (by simp [emptyCache]) hpw
  · intro st now kmin knew emin v ttlOpt prio hlen hnd hold hmem hmin hfresh
    have hmc : (cmSet st now knew v .memory ttlOpt prio).memoryCache =
        setMemoryCache now st.memoryCache knew
          (mkEntry now v .memory ttlOpt prio) := rfl
    have hkmink : kmin ∈ alKeys st.memoryCache :=
      List.mem_map.2 ⟨(kmin, emin), hmem, rfl⟩
    have hscan : evictScan now st.memoryCache = (emin.lastAccess, some kmin) := by
      unfold evictScan
      apply evictStep_foldl_min st.memoryCache now none (hold _ hmem) hmem
      intro p hp
      by_cases hpk : p.1 = kmin
      · left
        have hp' : (kmin, p.2) ∈ st.memoryCache := by
          rw [← hpk]
          exact hp
        have := alNodup_mem_unique hnd hp' hmem
        rw [← hpk, ← this]
      · exact Or.inr (hmin p hp hpk)
    have hevict : evictMemoryCache now st.memoryCache = alDelete st.memoryCache kmin := by
      unfold evictMemoryCache
      rw [hscan]
    have hfresh' : knew ∉ alKeys (alDelete st.memoryCache kmin) :=
      fun h => hfresh (alKeys_alDelete_subset h)
    have hset : setMemoryCache now st.memoryCache knew (mkEntry now v .memory ttlOpt prio) =
        alDelete st.memoryCache kmin ++ [(knew, mkEntry now v .memory ttlOpt prio)] := by
      unfold setMemoryCache
      rw [if_pos (le_of_eq hlen.symm), hevict, alSet_of_not_mem _ hfresh']
    have hdel := alDelete_length hnd hkmink
    have hkeys : alKeys (cmSet st now knew v .memory ttlOpt prio).memoryCache =
        alKeys (alDelete st.memoryCache kmin) ++ [knew] := by
      rw [hmc, hset]
      unfold alKeys
      simp
    refine ⟨?_, ?_, ?_, ?_⟩
    · rw [hmc, hset]
      simp only [List.length_append, List.length_cons, List.length_nil]
      omega
    · rw [hkeys]
      intro h
      rcases List.mem_append.1 h with h | h
      · exact not_mem_alKeys_alDelete st.memoryCache kmin h
      · simp only [List.mem_singleton] at h
        exact hfresh (h ▸ hkmink)
    · rw [hkeys]
      exact List.mem_append.2 (Or.inr (List.mem_singleton.2 rfl))
    · intro k hk hkne
      rw [hkeys]
      exact List.mem_append.2 (Or.inl (mem_alKeys_alDelete hk hkne))

set_option maxRecDepth 4000 in
/-- C3 counterexample: 101 memory-strategy `set`s of distinct keys issued
within the same millisecond leave 101 entries — the eviction scan's strict
comparison against the current time finds no victim, so the tier exceeds
its capacity of 100, refuting the unamended invariant. -/
theorem C3_tied_timestamps_counterexample :
    memoryMaxSize < (runMemOps emptyCache c3TieOps).memoryCache.length := by
  decide

/-- C3 witness: the amended theorem applied to a concrete two-op sequence
with strictly increasing timestamps, and to a concrete full tier (keys
`k0`…`k99`, `lastAccess` 0…99) receiving a fresh key `new` at time 1000:
the oldest key `k0` is the one evicted and `k1` survives. -/
theorem C3_memory_capacity_witness :
    (runMemOps emptyCache
      [ { time := 1, key := "a", value := JSVal.vNum 1, ttlOpt := none, prio := "normal" },
        { time := 2, key := "b", value := JSVal.vNum 1, ttlOpt := none, prio := "normal" }
      ]).memoryCache.length ≤ memoryMaxSize ∧
    ((cmSet c3Full 1000 "new" (JSVal.vNum 1) .memory none "normal").memoryCache.length =
        memoryMaxSize ∧
      "k0" ∉ alKeys (cmSet c3Full 1000 "new" (JSVal.vNum 1) .memory none "normal").memoryCache ∧
      "new" ∈ alKeys (cmSet c3Full 1000 "new" (JSVal.vNum 1) .memory none "normal").memoryCache ∧
      (∀ k ∈ alKeys c3Full.memoryCache, k ≠ "k0" →
        k ∈ alKeys (cmSet c3Full 1000 "new" (JSVal.vNum 1) .memory none "normal").memoryCache)) := by
  constructor
  · exact C3_memory_capacity_amended.1 _ (by decide)
  · exact C3_memory_capacity_amended.2 c3Full 1000 "k0" "new" (c3Entry 0)
      (JSVal.vNum 1) none "normal" (by decide) (by decide) (by decide)
      (by decide) (by decide) (by decide)

/-! ## Claim C1 -/

/-- C1: the claim says a zero `lastMonthActual` baseline makes the growth
rule define `growthRate = 0` and pass; the code divides by the zero
baseline, gets Infinity for `thisMonthActual = 50`, and rejects the record
with the growth-ceiling error — evaluating `validateData` at the claim's
own example shows the rejection.  The 60 %-growth record is rejected as the
claim states. -/
theorem C1_zero_baseline_growth_code_bug :
    validateData "dsr" c1ZeroRec =
      { valid := false, errors := ["Growth rate cannot exceed 50%"] } ∧
    validateData "dsr" c1HighGrowthRec =
      { valid := false, errors := ["Growth rate cannot exceed 50%"] } := by
  exact ⟨by decide, by decide⟩

/-! ## Claim C2 -/

/-- C2 (amended): `get(key, 'auto')` probes memory → session → durable but
short-circuits on the first tier that merely HAS an entry; the entry's
validity is only checked afterwards.  So a durable value is found when the
earlier tiers have no entry at all for the key — which is the amended
guarantee proved here — while an expired entry in an earlier tier shadows
a valid later-tier entry (see the counterexample). -/
theorem C2_auto_fallthrough_amended (st : CacheState) (now : ℤ) (k : String)
    (e : CacheEntry) (hm : alGet st.memoryCache k = none)
    (hs : alGet st.sessionStore k = none) (hd : alGet st.localStore k = some e)
    (hv : isValidEntry now e = true) :
    cmGet st now k .auto = (st, some e.value) := by
  unfold cmGet cmLookup
  rw [hm, hs, hd]
  simp [hv]

/-- C2 counterexample: the memory tier holds an expired entry for `"k"`
while the durable tier holds a valid one; the claim says `get` returns the
first valid hit (the durable value), but the code returns `null` because
the presence-based `||` chain stops at the expired memory entry. -/
theorem C2_expired_shadow_counterexample :
    alGet c2State.localStore "k" = some c2Valid ∧
    isValidEntry 1000 c2Valid = true ∧
    (cmGet c2State 1000 "k" .auto).2 = none := by
  exact ⟨by decide, by decide, by decide⟩

/-- C2 witness: with no memory or session entry for `"k"`, an auto `get`
falls through to the durable tier and returns its value. -/
theorem C2_auto_fallthrough_witness :
    cmGet c2OnlyDurable 1000 "k" .auto = (c2OnlyDurable, some c2Valid.value) :=
  C2_auto_fallthrough_amended c2OnlyDurable 1000 "k" c2Valid (by decide)
    (by decide) (by decide) (by decide)

/-! ## Claim C4 -/

/-- C4 (amended): a failed required-presence check short-circuits to the
next field with exactly that one error; but for a defined, non-null value
the type, length, range, pattern and enum checks all run independently —
a failed type check does not suppress the later checks, so one field can
contribute several errors (only the three type alternatives are mutually
exclusive).  All fields are checked, and the business rules run after all
field-level checks, against the fully assembled record. -/
theorem C4_field_checks_amended :
    (∀ (field : String) (rules : FieldRule) (data : JSRecord),
      rules.required = true → jsEmptyVal (getField data field) = true →
      validateField field rules data = [field ++ " is required"]) ∧
    (∀ (field : String) (rules : FieldRule) (data : JSRecord) (q : ℚ) (p : Pat),
      getField data field = JSVal.vNum q → rules.type = FieldType.tString →
      rules.pattern = some p → matchesPat p (jsToString (JSVal.vNum q)) = false →
      (field ++ " must be a string") ∈ validateField field rules data ∧
      (field ++ " format is invalid") ∈ validateField field rules data) ∧
    (∀ (n : String) (schema : Schema) (data : JSRecord),
      lookupSchema n = some schema →
      (validateData n data).errors =
        listJoin (schema.map (fun p => validateField p.1 p.2 data)) ++
          bizErrsOf n data) := by
  refine ⟨?_, ?_, ?_⟩
  · intro field rules data h1 h2
    simp [validateField, h1, h2]
  · intro field rules data q p hget htype hpat hmatch
    have ht : typeErrs field rules (JSVal.vNum q) = [field ++ " must be a string"] := by
      simp [typeErrs, htype]
    have hp : patternErrs field rules (JSVal.vNum q) = [field ++ " format is invalid"] := by
      simp [patternErrs, hpat, hmatch]
    constructor
    · simp [validateField, hget, jsEmptyVal, ht]
    · simp [validateField, hget, jsEmptyVal, hp]
  · intro n schema data h
    simp [validateData, h]

/-- C4 counterexample: a `dsr` record whose `dsrId` is the number 5 gets
TWO errors for the single field `dsrId` — the type error and the pattern
error — refuting the claim that the first failing check for a field
suppresses later-stage errors for that field. -/
theorem C4_two_errors_counterexample :
    validateData "dsr" c4BadIdRec =
      { valid := false,
        errors := ["dsrId must be a string", "dsrId format is invalid"] } := by
  decide

/-- C4 witness: the amended theorem applied to the `name` rule on an empty
record (required short-circuit), to the `dsrId` rule on the numeric-id
record (independent type and pattern errors), and to the `dsr` store
(field errors in schema order followed by the business-rule errors). -/
theorem C4_field_checks_witness :
    validateField "name" c4NameRule [] = ["name" ++ " is required"] ∧
    (("dsrId" ++ " must be a string") ∈ validateField "dsrId" c4DsrIdRule c4BadIdRec ∧
      ("dsrId" ++ " format is invalid") ∈ validateField "dsrId" c4DsrIdRule c4BadIdRec) ∧
    (validateData "dsr" c4BadIdRec).errors =
      listJoin (dsrSchema.map (fun p => validateField p.1 p.2 c4BadIdRec)) ++
        bizErrsOf "dsr" c4BadIdRec := by
  refine ⟨C4_field_checks_amended.1 "name" c4NameRule [] rfl (by decide),
    C4_field_checks_amended.2.1 "dsrId" c4DsrIdRule c4BadIdRec 5 .dsrIdPat
      (by decide) rfl rfl (by decide),
    C4_field_checks_amended.2.2 "dsr" dsrSchema c4BadIdRec rfl⟩

/-! ## Claim C5 -/

/-- C5: a failed `addData` or `updateData` (unknown store, validation
failure, duplicate id, record not found) leaves the entire DataManager
state — the store's record list and the `"<storeName>-data"` cache entry —
exactly as it was: every throw in the code precedes every mutation.  And
`addData` with an id already present in the store returns an error rather
than silently overwriting. -/
theorem C5_failed_mutation_preserves_state :
    (∀ (st : DMState) (now : ℤ) (genId n : String) (data : JSRecord) (e : String),
      (addData st now genId n data).2 = Except.error e →
      (addData st now genId n data).1 = st) ∧
    (∀ (st : DMState) (now : ℤ) (n : String) (id : JSVal) (upd : JSRecord) (e : String),
      (updateData st now n id upd).2 = Except.error e →
      (updateData st now n id upd).1 = st) ∧
    (∀ (st : DMState) (now : ℤ) (genId n : String) (data : JSRecord)
        (recs : List JSRecord),
      lookupData st n = some recs →
      recs.any (fun item => getField item "id" = getField (enrich data now genId) "id") = true →
      ∃ e, (addData st now genId n data).2 = Except.error e) := by
  refine ⟨?_, ?_, ?_⟩
  · intro st now genId n data e h
    cases hl : lookupData st n with
    | none => simp [addData, hl]
    | some records =>
      simp only [addData, hl] at h ⊢
      by_cases hv : (validateData n (enrich data now genId)).valid
      · by_cases ha :
          (records.any fun item => getField item "id" = getField (enrich data now genId) "id")
        · simp [hv, ha]
        · simp [hv, ha] at h
      · simp [hv]
  · intro st now n id upd e h
    cases hl : lookupData st n with
    | none => simp [updateData, hl]
    | some records =>
      cases hi : records.findIdx? (fun item => getField item "id" = id) with
      | none => simp [updateData, hl, hi]
      | some index =>
        simp only [updateData, hl, hi] at h ⊢
        exact errorFstEq h
  · intro st now genId n data recs hl ha
    by_cases hv : (validateData n (enrich data now genId)).valid
    · exact ⟨"Record with id " ++ jsToString (getField (enrich data now genId) "id") ++
        " already exists", by simp [addData, hl, hv, ha]⟩
    · exact ⟨"Validation failed: " ++
        String.intercalate ", " (validateData n (enrich data now genId)).errors,
        by simp [addData, hl, hv]⟩

/-- C5 witness: adding a record with no `name` to `sales` fails and leaves
the state untouched; updating a missing id fails and leaves the state
untouched; adding a record whose id `"1"` already exists returns an
error. -/
theorem C5_failed_mutation_witness :
    (addData c5State 5 "g1" "sales" c5NoNameData).1 = c5State ∧
    (updateData c5State 9 "sales" (.vStr "2") []).1 = c5State ∧
    ∃ e, (addData c5State 5 "g1" "sales" c5DupIdData).2 = Except.error e := by
  refine ⟨?_, ?_, ?_⟩
  · exact C5_failed_mutation_preserves_state.1 c5State 5 "g1" "sales" c5NoNameData
      "Validation failed: name is required" (by rfl)
  · exact C5_failed_mutation_preserves_state.2.1 c5State 9 "sales" (.vStr "2") []
      "Record with id 2 not found" (by rfl)
  · exact C5_failed_mutation_preserves_state.2.2 c5State 5 "g1" "sales" c5DupIdData
      [c5ExistingRec] (by decide) (by decide)

/-! ## Claim C6 -/

/-- C6: the claim says `saveAll` → clear → `loadAll` restores a record list
deep-equal to the saved one, `createdAt`/`updatedAt` included; but the
snapshots go through `JSON.stringify`/`JSON.parse`, which turns the `Date`
timestamps into ISO strings — the restored `sales` list is the round-trip
image, whose `createdAt` is a string, not the saved `Date`, so deep
equality fails (and the loaded record no longer satisfies the store's own
`createdAt: date` schema rule). -/
theorem C6_roundtrip_code_bug :
    lookupData (loadAllData (clearStores (saveAllData c6State))) "sales" =
      some [rtRec c5ExistingRec] ∧
    getField (rtRec c5ExistingRec) "createdAt" = JSVal.vStr (isoStr 0) ∧
    lookupData (loadAllData (clearStores (saveAllData c6State))) "sales" ≠
      some [c5ExistingRec] := by
  exact ⟨by decide, by decide, by decide⟩

/-! ## Claim C7 -/

theorem foldrAppendBase (b : List Char) (l : List (List Char)) :
    l.foldr (· ++ ·) b = l.foldr (· ++ ·) [] ++ b := by
  induction l with
  | nil => simp
  | cons x l ih => simp [ih]

theorem string_append_length (s t : String) :
    (s ++ t).length = s.length + t.length := by
  cases s with | mk a =>
  cases t with | mk b =>
  show (a ++ b).length = a.length + b.length
  exact List.length_append a b

theorem jsonEscape_append (s t : String) :
    jsonEscape (s ++ t) = jsonEscape s ++ jsonEscape t := by
  cases s with | mk a =>
  cases t with | mk b =>
  show String.mk (((a ++ b).map escChar).foldr (· ++ ·) []) =
    String.mk (((a.map escChar).foldr (· ++ ·) []) ++ ((b.map escChar).foldr (· ++ ·) []))
  rw [List.map_append, List.foldr_append, foldrAppendBase]

theorem jsonEscape_clean {s : String} (h : ∀ c ∈ s.data, escChar c = [c]) :
    jsonEscape s = s := by
  cases s with | mk l =>
  show String.mk ((l.map escChar).foldr (· ++ ·) []) = String.mk l
  congr 1
  induction l with
  | nil => rfl
  | cons c l ih =>
    rw [List.map_cons, List.foldr_cons, h c (List.mem_cons_self c l),
      ih (fun c hc => h c (List.mem_cons_of_mem _ hc))]
    rfl

/-- For a string free of quotes and backslashes, the serialized form is two
characters longer, and the double-stringified form `setAutoCache` actually
measures is six characters longer. -/
theorem cleanAutoSize {s : String} (h : ∀ c ∈ s.data, escChar c = [c]) :
    (serialize (JSVal.vStr s)).length = s.length + 2 ∧
    (jsonQuote (serialize (JSVal.vStr s))).length = s.length + 6 := by
  have he : jsonEscape s = s := jsonEscape_clean h
  have h1 : serialize (JSVal.vStr s) = "\"" ++ s ++ "\"" := by
    show jsonQuote s = _
    unfold jsonQuote
    rw [he]
  constructor
  · rw [h1, string_append_length, string_append_length]
    show 1 + s.length + 1 = s.length + 2
    omega
  · rw [h1]
    show ("\"" ++ jsonEscape ("\"" ++ s ++ "\"") ++ "\"").length = s.length + 6
    rw [jsonEscape_append, jsonEscape_append, he,
      show jsonEscape "\"" = "\\\"" from rfl]
    simp only [string_append_length]
    show 1 + (2 + s.length + 2) + 1 = s.length + 6
    omega

theorem replicate_clean (n : ℕ) :
    ∀ c ∈ (String.mk (List.replicate n 'a')).data, escChar c = [c] := by
  intro c hc
  have hc' : c ∈ List.replicate n 'a' := hc
  rw [List.eq_of_mem_replicate hc']
  rfl

theorem replicate_length (n : ℕ) :
    (String.mk (List.replicate n 'a')).length = n := by
  show (List.replicate n 'a').length = n
  exact List.length_replicate n 'a'

/-- C7 (amended): `setAutoCache` selects the tier purely by the length of
`JSON.stringify(entry.value)` — but `entry.value` is the ALREADY serialized
value, so the measured quantity is the serialized form re-quoted and
re-escaped (at least two characters longer than the serialized byte
length the claim names): strictly below 1024 goes to memory, strictly
below 10240 to sessionStorage, everything else to localStorage. -/
theorem C7_auto_tier_amended (st : CacheState) (now : ℤ) (k : String)
    (v : JSVal) (ttlOpt : Option ℤ) (prio : String) :
    ((jsonQuote (serialize v)).length < 1024 →
      cmSet st now k v .auto ttlOpt prio =
        { st with memoryCache :=
            setMemoryCache now st.memoryCache k (mkEntry now v .auto ttlOpt prio) }) ∧
    (1024 ≤ (jsonQuote (serialize v)).length →
      (jsonQuote (serialize v)).length < 10240 →
      cmSet st now k v .auto ttlOpt prio =
        { st with sessionStore :=
            setSessionStorageCache st.sessionStore k (mkEntry now v .auto ttlOpt prio) }) ∧
    (10240 ≤ (jsonQuote (serialize v)).length →
      cmSet st now k v .auto ttlOpt prio =
        { st with localStore :=
            setLocalStorageCache st.localStore k (mkEntry now v .auto ttlOpt prio) }) := by
  have hval : (mkEntry now v .auto ttlOpt prio).value = serialize v := rfl
  refine ⟨?_, ?_, ?_⟩
  · intro h1
    simp only [cmSet, setAutoCache, hval]
    rw [if_pos h1]
  · intro h1 h2
    simp only [cmSet, setAutoCache, hval]
    rw [if_neg (by omega), if_pos h2]
  · intro h1
    simp only [cmSet, setAutoCache, hval]
    rw [if_neg (by omega), if_neg (by omega)]

/-- C7 counterexample: a 1021-character string serializes to 1023 bytes —
strictly under the 1 KB threshold, so the claim says it goes to the memory
tier — but the code measures the double-stringified length 1027 and places
it in the sessionStorage tier instead, leaving the memory tier empty. -/
theorem C7_size_threshold_counterexample :
    (serialize (JSVal.vStr c7Str1021)).length < 1024 ∧
    (cmSet emptyCache 0 "k" (JSVal.vStr c7Str1021) .auto none "normal").memoryCache = [] ∧
    (cmSet emptyCache 0 "k" (JSVal.vStr c7Str1021) .auto none "normal").sessionStore ≠ [] := by
  obtain ⟨hs, hq⟩ := @cleanAutoSize c7Str1021 (replicate_clean 1021)
  have hl : c7Str1021.length = 1021 := replicate_length 1021
  rw [hl] at hs hq
  have hstep : cmSet emptyCache 0 "k" (JSVal.vStr c7Str1021) .auto none "normal" =
      { emptyCache with sessionStore := setSessionStorageCache emptyCache.sessionStore "k" (mkEntry 0 (JSVal.vStr c7Str1021) .auto none "normal") } := by
    have hval : (mkEntry 0 (JSVal.vStr c7Str1021) .auto none "normal").value =
        serialize (JSVal.vStr c7Str1021) := rfl
    simp only [cmSet, setAutoCache, hval]
    rw [if_neg (by omega), if_pos (by omega)]
  refine ⟨by omega, ?_, ?_⟩
  · rw [hstep]
    rfl
  · rw [hstep]
    show alSet [] "k" (mkEntry 0 (JSVal.vStr c7Str1021) .auto none "normal") ≠ []
    unfold alSet
    simp

/-- C7 witness: the amended theorem applied to a 1-character value (memory
tier), a 2000-character value (sessionStorage tier) and a 10300-character
value (localStorage tier). -/
theorem C7_auto_tier_witness :
    cmSet emptyCache 0 "k" (JSVal.vStr c7Small) .auto none "normal" =
      { emptyCache with memoryCache := setMemoryCache 0 emptyCache.memoryCache "k" (mkEntry 0 (JSVal.vStr c7Small) .auto none "normal") } ∧
    cmSet emptyCache 0 "k" (JSVal.vStr c7Mid) .auto none "normal" =
      { emptyCache with sessionStore := setSessionStorageCache emptyCache.sessionStore "k" (mkEntry 0 (JSVal.vStr c7Mid) .auto none "normal") } ∧
    cmSet emptyCache 0 "k" (JSVal.vStr c7Big) .auto none "normal" =
      { emptyCache with localStore := setLocalStorageCache emptyCache.localStore "k" (mkEntry 0 (JSVal.vStr c7Big) .auto none "normal") } := by
  have hmid := (@cleanAutoSize c7Mid (replicate_clean 2000)).2
  have hbig := (@cleanAutoSize c7Big (replicate_clean 10300)).2
  have hlm : c7Mid.length = 2000 := replicate_length 2000
  have hlb : c7Big.length = 10300 := replicate_length 10300
  rw [hlm] at hmid
  rw [hlb] at hbig
  refine ⟨(C7_auto_tier_amended emptyCache 0 "k" (JSVal.vStr c7Small) none "normal").1
      (by decide),
    (C7_auto_tier_amended emptyCache 0 "k" (JSVal.vStr c7Mid) none "normal").2.1
      (by omega) (by omega),
    (C7_auto_tier_amended emptyCache 0 "k" (JSVal.vStr c7Big) none "normal").2.2
      (by omega)⟩

/-! ## Claim C8 -/

/-- C8 (amended): for every tier, `get` returns the value exactly when the
looked-up entry exists and `now - createdAt < ttlMillis` (so an expired but
unswept entry reads as absent), and returns absent on a missing entry; on a
valid hit the entry's `accessCount`/`lastAccess` update persists in the
memory tier's backing `Map`, but a sessionStorage or localStorage `get`
never changes that tier's backing store — the update lands on a transient
parsed copy (see the counterexample), contrary to the unamended claim. -/
theorem C8_get_semantics_amended :
    (∀ (st : CacheState) (now : ℤ) (k : String) (strat : Strategy),
      (∀ tier e, cmLookup st k strat = some (tier, e) →
        ((cmGet st now k strat).2 = some e.value ↔ now - e.timestamp < e.ttl)) ∧
      (cmLookup st k strat = none → (cmGet st now k strat).2 = none)) ∧
    (∀ (st : CacheState) (now : ℤ) (k : String) (e : CacheEntry),
      alGet st.memoryCache k = some e → isValidEntry now e = true →
      cmGet st now k .memory =
        ({ st with memoryCache := alSet st.memoryCache k { e with accessCount := e.accessCount + 1, lastAccess := now } },
          some e.value)) ∧
    (∀ (st : CacheState) (now : ℤ) (k : String),
      (cmGet st now k .sessionStorage).1 = st ∧
      (cmGet st now k .localStorage).1 = st) := by
  refine ⟨?_, ?_, ?_⟩
  · intro st now k strat
    constructor
    · intro tier e hlk
      have hiff : (cmGet st now k strat).2 = some e.value ↔ isValidEntry now e = true := by
        unfold cmGet
        rw [hlk]
        by_cases hv : isValidEntry now e
        · cases tier <;> simp [hv]
        · cases tier <;> simp [hv]
      rw [hiff]
      simp [isValidEntry]
    · intro h
      unfold cmGet
      rw [h]
  · intro st now k e hget hv
    unfold cmGet cmLookup
    rw [hget]
    simp [hv]
  · intro st now k
    constructor
    · show (cmGet st now k .sessionStorage).1 = st
      cases h : alGet st.sessionStore k with
      | none => simp [cmGet, cmLookup, h]
      | some e =>
        simp only [cmGet, cmLookup, h, Option.map_some]
        show (if isValidEntry now e = true then (st, some e.value) else (st, none)).1 = st
        split
        · rfl
        · rfl
    · show (cmGet st now k .localStorage).1 = st
      cases h : alGet st.localStore k with
      | none => simp [cmGet, cmLookup, h]
      | some e =>
        simp only [cmGet, cmLookup, h, Option.map_some]
        show (if isValidEntry now e = true then (st, some e.value) else (st, none)).1 = st
        split
        · rfl
        · rfl

/-- C8 counterexample: a sessionStorage `get` hits a valid entry and
returns its value, yet the tier's backing store afterwards still holds the
entry with `accessCount = 0` and the old `lastAccess = 100` — the claimed
increment is never observable in the backing store for this tier. -/
theorem C8_storage_counter_counterexample :
    (cmGet c8State 200 "k" .sessionStorage).2 = some c8Entry.value ∧
    (cmGet c8State 200 "k" .sessionStorage).1 = c8State ∧
    alGet ((cmGet c8State 200 "k" .sessionStorage).1).sessionStore "k" = some c8Entry ∧
    c8Entry.accessCount = 0 ∧ c8Entry.lastAccess = 100 ∧ (100 : ℤ) ≠ 200 := by
  refine ⟨by decide, by decide, by decide, by decide, by decide, by decide⟩

/-- C8 witness: the amended theorem applied to a valid sessionStorage hit
(the value comes back iff the TTL window is open), to a valid memory hit
(the bumped entry is written back to the `Map`), and to a localStorage
`get` (state unchanged). -/
theorem C8_get_semantics_witness :
    ((cmGet c8State 200 "k" .sessionStorage).2 = some c8Entry.value ↔
      (200 : ℤ) - c8Entry.timestamp < c8Entry.ttl) ∧
    cmGet c8MemState 200 "k" .memory =
      ({ c8MemState with memoryCache := alSet c8MemState.memoryCache "k" { c8Entry with accessCount := c8Entry.accessCount + 1, lastAccess := 200 } },
        some c8Entry.value) ∧
    (cmGet c8State 200 "k" .localStorage).1 = c8State := by
  refine ⟨(C8_get_semantics_amended.1 c8State 200 "k" .sessionStorage).1
      .sessionHit c8Entry (by decide),
    C8_get_semantics_amended.2.1 c8MemState 200 "k" c8Entry (by decide) (by decide),
    (C8_get_semantics_amended.2.2 c8State 200 "k").2⟩

/-! ## Claim C9 -/

/-- C9: `queryData`'s pagination runs only under the truthiness test
`if (options.limit || options.offset)`, so `{limit: 0}` (and likewise
offset 0 with no limit) skips the pagination step entirely and returns the
full filtered-and-sorted list rather than an empty slice. -/
theorem C9_zero_pagination_skipped (st : DMState) (n : String)
    (recs : List JSRecord) (opts : QueryOptions)
    (h : lookupData st n = some recs) :
    (opts.limit = some 0 → opts.offset = none →
      queryData st n opts = .ok (applySort opts.sort (applyFilter opts.filter recs))) ∧
    (opts.offset = some 0 → opts.limit = none →
      queryData st n opts = .ok (applySort opts.sort (applyFilter opts.filter recs))) := by
  constructor
  · intro hl ho
    simp [queryData, h, truthyOpt, hl, ho]
  · intro ho hl
    simp [queryData, h, truthyOpt, hl, ho]

/-- C9 witness: on a one-record `sales` store, `{limit: 0}` and
`{offset: 0}` both return the full (unfiltered, unsorted) record list. -/
theorem C9_zero_pagination_witness :
    queryData c9State "sales" { limit := some 0 } = .ok [c5ExistingRec] ∧
    queryData c9State "sales" { offset := some 0 } = .ok [c5ExistingRec] := by
  refine ⟨(C9_zero_pagination_skipped c9State "sales" [c5ExistingRec]
      { limit := some 0 } (by rfl)).1 rfl rfl,
    (C9_zero_pagination_skipped c9State "sales" [c5ExistingRec]
      { offset := some 0 } (by rfl)).2 rfl rfl⟩

/-! ## Claim C10 -/

/-- C10: for a store name that is not registered, `validateData` returns
`{valid: false, errors: ['Store not found']}` without throwing, while
`addData`, `updateData`, `deleteData` and `queryData` all throw
`Store <name> not found` (modelled as `Except.error`), leaving the state
untouched. -/
theorem C10_unknown_store_behavior (n : String) (h : lookupSchema n = none) :
    (∀ d, validateData n d = { valid := false, errors := ["Store not found"] }) ∧
    (∀ st now g d, addData st now g n d =
      (st, .error ("Store " ++ n ++ " not found"))) ∧
    (∀ st now id u, updateData st now n id u =
      (st, .error ("Store " ++ n ++ " not found"))) ∧
    (∀ (st : DMState) id, deleteData st n id =
      (st, .error ("Store " ++ n ++ " not found"))) ∧
    (∀ (st : DMState) opts, queryData st n opts =
      .error ("Store " ++ n ++ " not found")) := by
  have hd : ∀ st : DMState, lookupData st n = none := by
    intro st
    simp [lookupData, h]
  refine ⟨?_, ?_, ?_, ?_, ?_⟩
  · intro d
    simp [validateData, h]
  · intro st now g d
    simp [addData, hd st]
  · intro st now id u
    simp [updateData, hd st]
  · intro st id
    simp [deleteData, hd st]
  · intro st opts
    simp [queryData, hd st]

/-- C10 witness: the unknown store name `"inventory"`: `validateData`
returns the error result, `addData` and `queryData` throw. -/
theorem C10_unknown_store_witness :
    validateData "inventory" [] = { valid := false, errors := ["Store not found"] } ∧
    addData c5State 5 "g1" "inventory" [] =
      (c5State, .error ("Store " ++ "inventory" ++ " not found")) ∧
    queryData c5State "inventory" {} =
      .error ("Store " ++ "inventory" ++ " not found") := by
  refine ⟨(C10_unknown_store_behavior "inventory" rfl).1 [],
    (C10_unknown_store_behavior "inventory" rfl).2.1 c5State 5 "g1" [],
    (C10_unknown_store_behavior "inventory" rfl).2.2.2.2 c5State {}⟩

end GOnSales
